import Mathlib

/- Verification development for the silx multi-peak fitting engine,
   covering src/silx/math/specfit.py (fit driver) and
   src/silx/math/fit/specfitfunctions.py (model library and estimators).

   Numeric quantities are modelled as rationals wherever the code only
   performs field arithmetic and comparisons; the area conversion formulas,
   which use sqrt, pi and log, are modelled over the reals.  Calls into
   external collaborators (peak_search, guess_fwhm, leastsq, subac) are
   modelled as oracle arguments, since those modules are outside the two
   source files. -/

/-! Constraint code constants, from specfitfunctions.py lines 187-194. -/

def CFREE : ℚ := 0

def CPOSITIVE : ℚ := 1

def CQUOTED : ℚ := 2

def CFIXED : ℚ := 3

def CFACTOR : ℚ := 4

def CDELTA : ℚ := 5

def CSUM : ℚ := 6

def CIGNORED : ℚ := 7

/-- The CONS table of code names used by Specfit.estimate (specfit.py
lines 459-466). -/
def CONS : List String :=
  ["FREE", "POSITIVE", "QUOTED", "FIXED", "FACTOR", "DELTA", "SUM", "IGNORE"]

/-- Python int() applied to a rational: truncation toward zero. -/
def truncQ (q : ℚ) : ℤ := if 0 ≤ q then Int.floor q else Int.ceil q

/-- The configuration entries of SpecfitFunctions.config that
estimate_height_position_fwhm reads (specfitfunctions.py lines 301-432).
yscalingEntry is an Option because the source reads config with a
try/except falling back to 1.0 when the key is missing. -/
structure EstConfig where
  noConstraintsFlag : Bool
  positiveHeightAreaFlag : Bool
  positiveFwhmFlag : Bool
  sameFwhmFlag : Bool
  quotedPositionFlag : Bool
  autoFwhm : Bool
  forcePeakPresence : Bool
  yscalingEntry : Option ℚ
  fwhmPoints : ℚ
  sensitivity : ℚ
  deriving Repr, DecidableEq

/-- Resolution of the yscaling argument in estimate_height_position_fwhm
(specfitfunctions.py lines 301-307): take the argument if given, else the
config entry (1.0 when the key is absent), then replace 0 by 1. -/
def resolveYscaling (arg : Option ℚ) (cfg : EstConfig) : ℚ :=
  let ys : ℚ :=
    match arg with
    | some v => v
    | none => cfg.yscalingEntry.getD 1
  if ys = 0 then 1 else ys

/-- Result of resolving the peak-search heuristics: the search fwhm, the
search sensitivity, and the (possibly updated) configuration store. -/
structure HeurResult where
  searchFwhm : ℤ
  searchSens : ℚ
  cfg : EstConfig
  deriving Repr, DecidableEq

/-- The heuristic-clamping prologue of estimate_height_position_fwhm
(specfitfunctions.py lines 314-326): search fwhm from guess_fwhm (an
external oracle, passed as an argument) when AutoFwhm is set, else from
int(float(config[FwhmPoints])); sensitivity from config; fwhm floored at
3 and sensitivity at 1, each clamp also written back into the config. -/
def resolveHeuristics (cfg : EstConfig) (guessFwhm : ℤ) : HeurResult :=
  let sf0 : ℤ := if cfg.autoFwhm then guessFwhm else truncQ cfg.fwhmPoints
  let ss0 : ℚ := cfg.sensitivity
  let step1 : ℤ × EstConfig :=
    if sf0 < 3 then (3, { cfg with fwhmPoints := 3 }) else (sf0, cfg)
  let step2 : ℚ × EstConfig :=
    if ss0 < 1 then (1, { step1.2 with sensitivity := 1 }) else (ss0, step1.2)
  ⟨step1.1, step2.1, step2.2⟩

/-- Index of the largest-height peak among the estimated seed heights,
as computed by estimate_height_position_fwhm (specfitfunctions.py lines
346-365): a strict-greater scan, so the first maximal index is kept. -/
def indexLargestPeakAux : List ℚ → ℚ → ℕ → ℕ → ℕ
  | [], _, _, best => best
  | h :: t, hbest, cur, best =>
    if hbest < h then indexLargestPeakAux t h (cur + 1) cur
    else indexLargestPeakAux t hbest (cur + 1) best

/-- Index of the largest-height peak (0 for an empty list, as in the
source where index_largest_peak is initialised to 0). -/
def indexLargestPeak : List ℚ → ℕ
  | [] => 0
  | h :: t => indexLargestPeakAux t h 1 0

/-- Height row of the final constraint table (specfitfunctions.py lines
403-408): POSITIVE when constraints are enabled and
PositiveHeightAreaFlag is set. -/
def gaussHeightRow (cfg : EstConfig) : ℚ × ℚ × ℚ :=
  if ¬cfg.noConstraintsFlag ∧ cfg.positiveHeightAreaFlag then (CPOSITIVE, 0, 0)
  else (0, 0, 0)

/-- Position row of the final constraint table (specfitfunctions.py lines
411-416): QUOTED to the data range when QuotedPositionFlag is set. -/
def gaussPositionRow (cfg : EstConfig) (xmin xmax : ℚ) : ℚ × ℚ × ℚ :=
  if ¬cfg.noConstraintsFlag ∧ cfg.quotedPositionFlag then (CQUOTED, xmin, xmax)
  else (0, 0, 0)

/-- FWHM row of the final constraint table for peak i (specfitfunctions.py
lines 419-429): POSITIVE when PositiveFwhmFlag is set, then overridden by
FACTOR(3 * index_largest_peak + 2, 1.0) when SameFwhmFlag is set and i is
not the largest peak. -/
def gaussFwhmRow (cfg : EstConfig) (i idxLargest : ℕ) : ℚ × ℚ × ℚ :=
  let r : ℚ × ℚ × ℚ :=
    if ¬cfg.noConstraintsFlag ∧ cfg.positiveFwhmFlag then (CPOSITIVE, 0, 0)
    else (0, 0, 0)
  if ¬cfg.noConstraintsFlag ∧ cfg.sameFwhmFlag ∧ i ≠ idxLargest then
    (CFACTOR, 3 * (idxLargest : ℚ) + 2, 1)
  else r

/-- Row k of the final constraint table assembled by
estimate_height_position_fwhm: the source walks peak_index through
3 i, 3 i + 1, 3 i + 2 for each peak i, so row k belongs to peak k / 3 and
is a height, position or fwhm row according to k mod 3. -/
def gaussFinalConsRow (cfg : EstConfig) (xmin xmax : ℚ) (idxLargest : ℕ)
    (k : ℕ) : ℚ × ℚ × ℚ :=
  match k % 3 with
  | 0 => gaussHeightRow cfg
  | 1 => gaussPositionRow cfg xmin xmax
  | _ => gaussFwhmRow cfg (k / 3) idxLargest

/-- The final (3 npeaks) x 3 constraint table returned by
estimate_height_position_fwhm (specfitfunctions.py lines 399-432). -/
def gaussFinalCons (cfg : EstConfig) (xmin xmax : ℚ) (npeaks idxLargest : ℕ) :
    List (ℚ × ℚ × ℚ) :=
  (List.range (3 * npeaks)).map (gaussFinalConsRow cfg xmin xmax idxLargest)

/-! The parameter records built by Specfit.estimate (specfit.py lines
516-556) and extended by the MCA refit loop (lines 1030-1054).  The
xmin/xmax window fields of the dictionaries are not needed by any claim
and are not modelled.  The value type is a parameter so that the merge
logic can be studied over the rationals while the MCA area formulas,
which involve square roots, are studied over the reals. -/

structure ParamEntry (A : Type) where
  name : String
  estimation : A
  group : ℕ
  code : String
  cons1 : A
  cons2 : A
  fitresult : A
  sigma : A
  deriving Repr, DecidableEq

/-- The numbered peak-parameter names built by Specfit.estimate
(specfit.py lines 508-514): one full group of names is appended per
iteration of the while loop until param_index reaches the number of peak
parameters, i.e. ceil(total / n) groups for a template of n names.  The
source loop does not terminate on an empty template; the model returns
the empty list there, a case no claim exercises. -/
def numberedNames (funNames : List String) (total : ℕ) : List String :=
  let n := funNames.length
  if n = 0 then []
  else
    (List.range ((total + n - 1) / n)).flatMap
      (fun g => funNames.map (fun s => s ++ toString (g + 1)))

/-- Indexing a two-dimensional numpy table the way Python does (t[r][c]),
with none modelling the IndexError raised when either index is out of
range. -/
def tab2get (t : List (List ℚ)) (r c : ℕ) : Option ℚ := do
  let row ← t.get? r
  row.get? c

/-- The body of the parameter-merging loop of Specfit.estimate (specfit.py
lines 522-556).  Background rows read bkg_esti_constraints[j][pindex];
peak rows read fun_esti_constraints[j][fun_param_index] and, when the
decoded code is FACTOR, DELTA or SUM, rebase cons1 by the number of
background parameters.  The incremental group counter of the source
equals fpi / nFun + 1 for the peak parameter with offset fpi. -/
def mergeParamsGo (bkgCons funCons : List (List ℚ)) (bkgPar funPar : List ℚ)
    (nbBg nFun : ℕ) : List String → ℕ → Option (List (ParamEntry ℚ))
  | [], _ => some []
  | pname :: rest, pidx => do
    let entry : ParamEntry ℚ ←
      if pidx < nbBg then do
        let codev ← tab2get bkgCons 0 pidx
        let code ← CONS.get? (truncQ codev).toNat
        let c1 ← tab2get bkgCons 1 pidx
        let c2 ← tab2get bkgCons 2 pidx
        let v ← bkgPar.get? pidx
        pure ⟨pname, v, 0, code, c1, c2, 0, 0⟩
      else do
        let fpi := pidx - nbBg
        let codev ← tab2get funCons 0 fpi
        let code ← CONS.get? (truncQ codev).toNat
        let c1raw ← tab2get funCons 1 fpi
        let c1 := if code = "FACTOR" ∨ code = "DELTA" ∨ code = "SUM" then
            c1raw + (nbBg : ℚ)
          else c1raw
        let c2 ← tab2get funCons 2 fpi
        let v ← funPar.get? fpi
        pure ⟨pname, v, fpi / nFun + 1, code, c1, c2, 0, 0⟩
    let rest2 ← mergeParamsGo bkgCons funCons bkgPar funPar nbBg nFun rest
      (pidx + 1)
    pure (entry :: rest2)

/-- The parameter-table construction of Specfit.estimate (specfit.py
lines 501-556): build the names (background names, then numbered peak
names) and run the merge loop.  none models an exception escaping
from estimate. -/
def estimateMerge (bkgNames funNames : List String)
    (bkgPar : List ℚ) (bkgCons : List (List ℚ))
    (funPar : List ℚ) (funCons : List (List ℚ)) :
    Option (List (ParamEntry ℚ)) :=
  let names := bkgNames ++ numberedNames funNames funPar.length
  mergeParamsGo bkgCons funCons bkgPar funPar bkgNames.length
    funNames.length names 0

/-! Area conversions (specfitfunctions.py lines 434-493), over the
reals. -/

/-- Indexed map starting at a given index; used to model the in-place
height-replacing loops. -/
def mapIdxFrom {A B : Type} (f : ℕ → A → B) : ℕ → List A → List B
  | _, [] => []
  | k, a :: l => f k a :: mapIdxFrom f (k + 1) l

/-- Gaussian height-to-area conversion used by estimate_agauss
(specfitfunctions.py lines 461-462):
sqrt(2 pi) * height * fwhm / (2 sqrt(2 log 2)). -/
noncomputable def gaussHeightToArea (height fwhm : ℝ) : ℝ :=
  Real.sqrt (2 * Real.pi) * height * fwhm / (2 * Real.sqrt (2 * Real.log 2))

/-- Lorentzian height-to-area conversion used by estimate_alorentz
(specfitfunctions.py line 492): height * fwhm * 0.5 * pi. -/
noncomputable def lorentzHeightToArea (height fwhm : ℝ) : ℝ :=
  height * fwhm * (1 / 2) * Real.pi

/-- The height-replacing loop shared by estimate_agauss and
estimate_alorentz: for each peak i < len par / 3, replace par[3 i] by
conv par[3 i] par[3 i + 2].  The fwhm slots 3 i + 2 are never written by
the loop, so reading them from the original list is equivalent to the
in-place source loop. -/
noncomputable def areaConvert (conv : ℝ → ℝ → ℝ) (par : List ℝ) : List ℝ :=
  mapIdxFrom
    (fun k v =>
      if k % 3 = 0 ∧ k / 3 < par.length / 3 then conv v (par.getD (k + 2) 0)
      else v)
    0 par

/-- Parameter post-processing of estimate_agauss (specfitfunctions.py
lines 453-463). -/
noncomputable def estimate_agauss_pars (fittedpar : List ℝ) : List ℝ :=
  areaConvert gaussHeightToArea fittedpar

/-- Parameter post-processing of estimate_alorentz (specfitfunctions.py
lines 484-493). -/
noncomputable def estimate_alorentz_pars (fittedpar : List ℝ) : List ℝ :=
  areaConvert lorentzHeightToArea fittedpar

/-! The MCA residual search (specfit.py lines 1190-1293) and refit loop
(lines 1030-1054).  The functions are polymorphic over a linear ordered
field so that they stay executable on the rationals; the claims
instantiate them at the reals, where the Gaussian area formula lives. -/

/-- Does the first character list lead the second one? -/
def leadMatch : List Char → List Char → Bool
  | [], _ => true
  | _ :: _, [] => false
  | a :: s, b :: t => a = b && leadMatch s t

/-- Does the first character list occur contiguously inside the second? -/
def occursIn (sub : List Char) : List Char → Bool
  | [] => sub.isEmpty
  | b :: t => leadMatch sub (b :: t) || occursIn sub t

/-- Python substring test (the in operator and str.find != -1). -/
def strContains (s sub : String) : Bool := occursIn sub.toList s.toList

/-- Codes that let a FWHM parameter act as the tie target in
mcaresidualssearch (specfit.py lines 1226-1227).  The numeric
alternatives 0-3 of the source test cannot occur here because the
modelled code field is a string. -/
def fwhmEligibleCodes : List String := ["FREE", "FIXED", "QUOTED", "POSITIVE"]

/-- State of the fwhm scan of mcaresidualssearch (specfit.py lines
1214-1230): running fwhm value, and the code/cons1/cons2 that a new FWHM
parameter will receive. -/
structure FwhmScanState (A : Type) where
  fwhm : A
  fwhmcode : String
  fwhmcons1 : A
  fwhmcons2 : A
  deriving Repr, DecidableEq

/-- One pass of the fwhm scan: every parameter whose name contains Fwhm
updates the running fwhm value; those whose code is FREE, FIXED, QUOTED
or POSITIVE additionally retarget the FACTOR tie to their own index. -/
def fwhmScanGo {A : Type} [LinearOrderedField A] :
    List (ParamEntry A) → ℕ → FwhmScanState A → FwhmScanState A
  | [], _, st => st
  | p :: rest, i, st =>
    let st1 : FwhmScanState A :=
      if strContains p.name "Fwhm" then
        if p.code ∈ fwhmEligibleCodes then ⟨p.fitresult, "FACTOR", (i : A), 1⟩
        else { st with fwhm := p.fitresult }
      else st
    fwhmScanGo rest (i + 1) st1

/-- The fwhm scan of mcaresidualssearch, starting from the source's
initial values fwhm = 10, code POSITIVE, cons = 0. -/
def fwhmScan {A : Type} [LinearOrderedField A] (pl : List (ParamEntry A)) :
    FwhmScanState A :=
  fwhmScanGo pl 0 ⟨10, "POSITIVE", 0, 0⟩

/-- A parameter p of the list is an eligible tie target for the scan. -/
def fwhmTieEligible {A : Type} (p : ParamEntry A) : Prop :=
  strContains p.name "Fwhm" = true ∧ p.code ∈ fwhmEligibleCodes

instance {A : Type} (p : ParamEntry A) : Decidable (fwhmTieEligible p) := by
  unfold fwhmTieEligible; infer_instance

/-- Index of the first parameter whose name contains Fwhm; this is the
tie target named by the claim (the first FWHM parameter of the list). -/
def specFirstFwhmIndex {A : Type} (pl : List (ParamEntry A)) : Option ℕ :=
  pl.findIdx? (fun p => strContains p.name "Fwhm")

/-- The per-name constraint rows of the new peak group proposed by
mcaresidualssearch (specfit.py lines 1257-1293).  The area value is
computed by the caller (over the reals it is the Gaussian height-to-area
conversion); none models the early return that discards the group when
the area is not positive. -/
def mcaNewGroupGo {A : Type} [LinearOrderedField A]
    (pos fwhm area : A) (fcode : String) (fc1 fc2 : A) :
    List String → Bool → Option (List (A × String × A × A))
  | [], _ => some []
  | pname :: rest, areanotdone =>
    if strContains pname "Position" then do
      let r ← mcaNewGroupGo pos fwhm area fcode fc1 fc2 rest areanotdone
      pure ((pos, "QUOTED", pos - (1 / 2) * fwhm, pos + (1 / 2) * fwhm) :: r)
    else if strContains pname "Area" then
      if areanotdone then
        if area ≤ 0 then none
        else do
          let r ← mcaNewGroupGo pos fwhm area fcode fc1 fc2 rest false
          pure ((area, "POSITIVE", 0, 0) :: r)
      else do
        let r ← mcaNewGroupGo pos fwhm area fcode fc1 fc2 rest areanotdone
        pure ((0, "FIXED", 0, 0) :: r)
    else if strContains pname "Fwhm" then do
      let r ← mcaNewGroupGo pos fwhm area fcode fc1 fc2 rest areanotdone
      pure ((fwhm, fcode, fc1, fc2) :: r)
    else do
      let r ← mcaNewGroupGo pos fwhm area fcode fc1 fc2 rest areanotdone
      pure ((0, "FIXED", 0, 0) :: r)

/-- The new peak group proposed by mcaresidualssearch for the residual
maximum at position pos with residual height height: empty when the
height is not positive (specfit.py line 1254) or when the converted area
is not positive (line 1269). -/
def mcaNewGroup {A : Type} [LinearOrderedField A]
    (theoryNames : List String) (pos height fwhm area : A)
    (fst : FwhmScanState A) : List (A × String × A × A) :=
  if height ≤ 0 then []
  else
    match mcaNewGroupGo pos fwhm area fst.fwhmcode fst.fwhmcons1 fst.fwhmcons2
        theoryNames true with
    | none => []
    | some l => l

/-- Minimal fit-driver state threaded by the MCA refit loop. -/
structure McaFitState (A : Type) where
  paramlist : List (ParamEntry A)
  chisq : A
  deriving Repr, DecidableEq

/-- Appending the proposed group to the parameter table (specfit.py lines
1035-1051): the new group number is one past the largest existing group,
every existing estimation is reset to its fit result, and one entry per
theory parameter name is appended. -/
def mcaAppendStep {A : Type} [LinearOrderedField A]
    (theoryNames : List String) (st : McaFitState A)
    (grp : List (A × String × A × A)) : List (ParamEntry A) :=
  let newg := st.paramlist.foldl (fun m p => max m (p.group + 1)) 1
  let updated := st.paramlist.map fun p => { p with estimation := p.fitresult }
  let appended := (List.range theoryNames.length).map fun i =>
    let row := grp.getD i (0, "FREE", 0, 0)
    (⟨theoryNames.getD i "" ++ toString newg, row.1, newg, row.2.1,
      row.2.2.1, row.2.2.2, 0, 0⟩ : ParamEntry A)
  updated ++ appended

/-- The residual refit loop of mcafit (specfit.py lines 1032-1054):
while chisq exceeds 2.5, ask the residual search (an oracle covering the
data-dependent residual computation) for a new group; append it and
refit (the solver call is the fitStep oracle), or stop when the proposal
is empty.  The fuel argument counts loop iterations. -/
def mcaRefitIter {A : Type} [LinearOrderedField A] (theoryNames : List String)
    (search : McaFitState A → List (A × String × A × A))
    (fitStep : McaFitState A → McaFitState A) :
    ℕ → McaFitState A → McaFitState A
  | 0, st => st
  | fuel + 1, st =>
    if st.chisq ≤ 5 / 2 then st
    else
      let grp := search st
      if grp.isEmpty then st
      else
        mcaRefitIter theoryNames search fitStep fuel
          (fitStep { st with paramlist := mcaAppendStep theoryNames st grp })

/-! Specfit.setdata (specfit.py lines 173-230). -/

/-- Data buffers held by the fit driver. -/
structure DataState where
  xdata0 : List ℚ
  ydata0 : List ℚ
  sigmay0 : List ℚ
  xdata : List ℚ
  ydata : List ℚ
  sigmay : List ℚ
  deriving Repr, DecidableEq

/-- Python min over a nonempty list (the caller guards emptiness). -/
def listMin : List ℚ → ℚ
  | [] => 0
  | h :: t => t.foldl min h

/-- Python max over a nonempty list (the caller guards emptiness). -/
def listMax : List ℚ → ℚ
  | [] => 0
  | h :: t => t.foldl max h

/-- numpy boolean-mask indexing: none models the IndexError raised when
the mask length does not match the array length. -/
def maskFilter (mask : List Bool) (l : List ℚ) : Option (List ℚ) :=
  if l.length = mask.length then
    some (((mask.zip l).filter (fun mv => mv.1)).map (fun mv => mv.2))
  else none

/-- numpy.arange for a length, as rationals. -/
def natRange (n : ℕ) : List ℚ := (List.range n).map (fun i => (i : ℚ))

/-- Specfit.setdata: replace all six data buffers, then filter the
working copies by the x window when one is given.  The second component
is the exception, if one escaped; the first component is the state at
that moment, since the source mutates attributes one by one before any
masking error can be raised. -/
def setdata (x y sigmay : Option (List ℚ)) (xmin xmax : Option ℚ) :
    DataState × Option String :=
  match y with
  | none => (⟨[], [], [], [], [], []⟩, none)
  | some yv =>
    let xv : List ℚ :=
      match x with
      | none => natRange yv.length
      | some xs => xs
    let sv : List ℚ :=
      match sigmay with
      | none => List.replicate yv.length 1
      | some ss => ss
    let st1 : DataState := ⟨xv, yv, sv, xv, yv, sv⟩
    if (xmin.isSome ∨ xmax.isSome) ∧ st1.xdata ≠ [] then
      let lo := xmin.getD (listMin st1.xdata)
      let hi := xmax.getD (listMax st1.xdata)
      let mask := st1.xdata.map (fun t => decide (lo ≤ t ∧ t ≤ hi))
      match maskFilter mask st1.xdata with
      | none => (st1, some "IndexError")
      | some xf =>
        match maskFilter mask st1.ydata with
        | none => ({ st1 with xdata := xf }, some "IndexError")
        | some yf =>
          match maskFilter mask st1.sigmay with
          | none => ({ st1 with xdata := xf, ydata := yf }, some "IndexError")
          | some sf =>
            ({ st1 with xdata := xf, ydata := yf, sigmay := sf }, none)
    else (st1, none)

/-! Specfit.num_deriv (specfit.py lines 773-782). -/

/-- The step used by num_deriv:
delta = (param0[index] + numpy.equal(param0[index], 0.0)) * 0.00001. -/
def numDerivDelta (p : List ℚ) (i : ℕ) : ℚ :=
  (p.getD i 0 + (if p.getD i 0 = 0 then 1 else 0)) * (1 / 100000)

/-- Specfit.num_deriv: copy the parameter vector, shift entry i up and
down by delta, evaluate the fit function (an oracle argument) at both,
and form the symmetric quotient. -/
def num_deriv (f : List ℚ → ℚ → ℚ) (p : List ℚ) (i : ℕ) (x : ℚ) : ℚ :=
  let delta := numDerivDelta p i
  let f1 := f (p.set i (p.getD i 0 + delta)) x
  let f2 := f (p.set i (p.getD i 0 - delta)) x
  (f1 - f2) / (2 * delta)

/-- General central-difference operator with step d around the point a. -/
def centralDiff (g : ℚ → ℚ) (a d : ℚ) : ℚ := (g (a + d) - g (a - d)) / (2 * d)

/-- Modelled from the spec: the step size the specification ascribes to
num_deriv, max(abs p_i, 1) * 1e-5.  Kept for comparison with the step
the source actually computes. -/
def specNumDerivDelta (p : List ℚ) (i : ℕ) : ℚ :=
  max |p.getD i 0| 1 * (1 / 100000)

/-- Modelled from the spec: the value C6 claims num_deriv returns, the
central difference of the fit function with the spec step. -/
def specNumDeriv (f : List ℚ → ℚ → ℚ) (p : List ℚ) (i : ℕ) (x : ℚ) : ℚ :=
  centralDiff (fun v => f (p.set i v) x) (p.getD i 0) (specNumDerivDelta p i)

/-! Specfit.settheory and Specfit.setbackground (specfit.py lines
359-400). -/

/-- The slots of a theorydict or bkgdict entry; the callables themselves
are abstracted to identifiers, with none for a Python None slot. -/
abbrev TheoryEntry : Type := List (Option ℕ)

/-- The observable driver state touched by settheory and setbackground:
the two fitconfig selections and the active function slots. -/
structure FitDriverState where
  fittheory : Option String
  fitbkg : String
  theoryfunKey : Option String
  bkgfunKey : Option String
  modelderivSet : Bool
  deriving DecidableEq

/-- The error text of settheory (specfit.py lines 379-381), up to the
appended list of available names. -/
def theoryErrMsg (name : String) : String :=
  "No theory with name " ++ name ++ " in theorydict."

/-- The error text of setbackground (specfit.py lines 398-400). -/
def bkgErrMsg (name : String) : String :=
  "No theory with name " ++ name ++ " in bkgdict."

/-- Specfit.settheory: on a known name, select it and derive the
modelderiv flag from slot 5 of the entry; on an unknown name, raise
KeyError before touching any state. -/
def settheory (dict : List (String × TheoryEntry)) (st : FitDriverState)
    (name : String) : FitDriverState × Option String :=
  match List.lookup name dict with
  | some entry =>
    ({ st with
        fittheory := some name
        theoryfunKey := some name
        modelderivSet :=
          if 5 < entry.length then (entry.getD 5 none).isSome else false },
     none)
  | none => (st, some (theoryErrMsg name))

/-- Specfit.setbackground: on a known name, select it; on an unknown
name, raise KeyError before touching any state. -/
def setbackground (bdict : List (String × TheoryEntry)) (st : FitDriverState)
    (name : String) : FitDriverState × Option String :=
  match List.lookup name bdict with
  | some _ => ({ st with fitbkg := name, bkgfunKey := some name }, none)
  | none => (st, some (bkgErrMsg name))

/-! SpecfitFunctions construction and configure (specfitfunctions.py
lines 136-204 and 1181-1201), with an explicit store so that the Python
aliasing of the module-level defaults dictionary is observable. -/

/-- A configuration dictionary: insertion-ordered key/value pairs.
Boolean entries of the source are encoded as 0/1. -/
abbrev ConfigDict : Type := List (String × ℚ)

/-- The module-level SPECFITFUNCTIONS_DEFAULTS dictionary
(specfitfunctions.py lines 136-179). -/
def SPECFITFUNCTIONS_DEFAULTS : ConfigDict :=
  [("NoConstraintsFlag", 0),
   ("PositiveFwhmFlag", 1),
   ("PositiveHeightAreaFlag", 1),
   ("SameFwhmFlag", 0),
   ("QuotedPositionFlag", 0),
   ("QuotedEtaFlag", 0),
   ("Yscaling", 1),
   ("Xscaling", 1),
   ("FwhmPoints", 8),
   ("AutoFwhm", 0),
   ("Sensitivity", 5 / 2),
   ("ForcePeakPresence", 0),
   ("HypermetTails", 15),
   ("QuotedFwhmFlag", 0),
   ("MaxFwhm2InputRatio", 3 / 2),
   ("MinFwhm2InputRatio", 2 / 5),
   ("MinGaussArea4ShortTail", 50000),
   ("InitialShortTailAreaRatio", 1 / 20),
   ("MaxShortTailAreaRatio", 1 / 10),
   ("MinShortTailAreaRatio", 1 / 1000),
   ("InitialShortTailSlopeRatio", 7 / 10),
   ("MaxShortTailSlopeRatio", 2),
   ("MinShortTailSlopeRatio", 1 / 2),
   ("MinGaussArea4LongTail", 1000),
   ("InitialLongTailAreaRatio", 1 / 20),
   ("MaxLongTailAreaRatio", 3 / 10),
   ("MinLongTailAreaRatio", 1 / 100),
   ("InitialLongTailSlopeRatio", 20),
   ("MaxLongTailSlopeRatio", 50),
   ("MinLongTailSlopeRatio", 5),
   ("MinGaussHeight4StepTail", 5000),
   ("InitialStepTailHeightRatio", 1 / 500),
   ("MaxStepTailHeightRatio", 1 / 100),
   ("MinStepTailHeightRatio", 1 / 10000),
   ("HypermetQuotedPositionFlag", 1),
   ("DeltaPositionFwhmUnits", 1 / 2),
   ("SameSlopeRatioFlag", 1),
   ("SameAreaRatioFlag", 1)]

/-- ASCII lowercase of one character (the configuration keys of the
source are all ASCII, so this matches Python str.lower on them). -/
def lowerChar (c : Char) : Char :=
  if 65 ≤ c.toNat ∧ c.toNat ≤ 90 then Char.ofNat (c.toNat + 32) else c

/-- ASCII lowercase of a string. -/
def lowerStr (s : String) : String := String.mk (s.data.map lowerChar)

/-- One keyword of SpecfitFunctions.configure (specfitfunctions.py lines
1192-1200): set every existing key that matches case-insensitively; when
none matches, add the new key at the end. -/
def applyKwPair (cfg : ConfigDict) (k : String) (v : ℚ) : ConfigDict :=
  if cfg.any (fun p => lowerStr p.1 = lowerStr k) then
    cfg.map (fun p => if lowerStr p.1 = lowerStr k then (p.1, v) else p)
  else cfg ++ [(k, v)]

/-- SpecfitFunctions.configure applied to a keyword list: same in-place
dictionary, updated key by key. -/
def sffConfigure (cfg : ConfigDict) (kw : List (String × ℚ)) : ConfigDict :=
  kw.foldl (fun c p => applyKwPair c p.1 p.2) cfg

/-- First-match lookup in a configuration dictionary. -/
def cfgGet (cfg : ConfigDict) (k : String) : Option ℚ :=
  match cfg.find? (fun p => p.1 = k) with
  | some p => some p.2
  | none => none

/-- The heap of configuration dictionaries: the module-level defaults
plus every dictionary ever passed explicitly to a constructor. -/
structure SffHeap where
  defaults : ConfigDict
  owned : List ConfigDict
  deriving Repr, DecidableEq

/-- A reference held by a SpecfitFunctions instance in its config
attribute: either the shared module-level dictionary, or an owned one. -/
inductive ConfigRef : Type where
  | shared : ConfigRef
  | own : ℕ → ConfigRef
  deriving Repr, DecidableEq

/-- The constructor (specfitfunctions.py lines 200-204): with config=None
the instance stores a reference to the module dictionary, making no
copy; otherwise it references the dictionary it was given. -/
def sffInit (h : SffHeap) (cfg : Option ConfigDict) : SffHeap × ConfigRef :=
  match cfg with
  | none => (h, ConfigRef.shared)
  | some c => ({ h with owned := h.owned ++ [c] }, ConfigRef.own h.owned.length)

/-- Dereference an instance's config attribute. -/
def readCfg (h : SffHeap) : ConfigRef → ConfigDict
  | ConfigRef.shared => h.defaults
  | ConfigRef.own i => h.owned.getD i []

/-- SpecfitFunctions.configure through an instance reference: the
referenced dictionary is updated in place. -/
def sffConfigureRef (h : SffHeap) (r : ConfigRef) (kw : List (String × ℚ)) :
    SffHeap :=
  match r with
  | ConfigRef.shared => { h with defaults := sffConfigure h.defaults kw }
  | ConfigRef.own i =>
    { h with owned := h.owned.set i (sffConfigure (h.owned.getD i []) kw) }

/-- The Gaussian height-to-area conversion used by mcaresidualssearch
(specfit.py lines 1266-1267):
(height * fwhm / (2 sqrt(2 log 2))) * sqrt(2 pi). -/
noncomputable def mcaGaussArea (height fwhm : ℝ) : ℝ :=
  (height * fwhm / (2 * Real.sqrt (2 * Real.log 2))) * Real.sqrt (2 * Real.pi)

/-! Helper lemmas. -/

theorem truncQ_lt_three {q : ℚ} (h : q < 3) : truncQ q < 3 := by
  unfold truncQ
  split
  · exact Int.floor_lt.mpr (by exact_mod_cast h)
  · have hq : q ≤ 0 := le_of_not_le (by assumption)
    have : Int.ceil q ≤ 0 := Int.ceil_le.mpr (by exact_mod_cast hq)
    omega

theorem mapIdxFrom_get? {A B : Type} (f : ℕ → A → B) :
    ∀ (l : List A) (n m : ℕ),
      (mapIdxFrom f n l).get? m = (l.get? m).map (fun v => f (n + m) v) := by
  intro l
  induction l with
  | nil => intro n m; simp [mapIdxFrom]
  | cons a t ih =>
    intro n m
    cases m with
    | zero => simp [mapIdxFrom]
    | succ k =>
      have harith : n + 1 + k = n + (k + 1) := by omega
      show (mapIdxFrom f (n + 1) t).get? k = _
      rw [ih (n + 1) k, harith]
      simp only [List.get?_cons_succ]

theorem gaussFinalCons_get? (cfg : EstConfig) (xmin xmax : ℚ)
    (npeaks idxL j : ℕ) (hj : j < npeaks) :
    (gaussFinalCons cfg xmin xmax npeaks idxL).get? (3 * j + 2) =
      some (gaussFwhmRow cfg j idxL) := by
  unfold gaussFinalCons
  rw [List.get?_map, List.get?_range (by omega)]
  have h1 : (3 * j + 2) % 3 = 2 := by omega
  have h2 : (3 * j + 2) / 3 = j := by omega
  simp only [Option.map_some', gaussFinalConsRow, h1, h2]

/-- C7: estimate_height_position_fwhm never fails on out-of-band
heuristic inputs.  The search fwhm it uses is at least 3 and the search
sensitivity at least 1 whatever the configuration and the guess_fwhm
oracle return; a yscaling of 0, whether passed as the argument or read
from the configuration, is replaced by 1; and the resolved yscaling is
never 0. -/
theorem C7_estimate_clamps_heuristics (cfg : EstConfig) (g : ℤ)
    (arg : Option ℚ) :
    3 ≤ (resolveHeuristics cfg g).searchFwhm ∧
    1 ≤ (resolveHeuristics cfg g).searchSens ∧
    (arg = some 0 → resolveYscaling arg cfg = 1) ∧
    (cfg.yscalingEntry = some 0 → resolveYscaling none cfg = 1) ∧
    resolveYscaling arg cfg ≠ 0 := by
  refine ⟨?_, ?_, ?_, ?_, ?_⟩
  · unfold resolveHeuristics
    dsimp only
    split_ifs <;> omega
  · unfold resolveHeuristics
    dsimp only
    split_ifs <;> simp <;> linarith
  · intro h
    subst h
    simp [resolveYscaling]
  · intro h
    simp [resolveYscaling, h]
  · unfold resolveYscaling
    dsimp only
    split_ifs with h
    · exact one_ne_zero
    · exact h

/-- C7 witness: concrete out-of-band inputs (FwhmPoints 2, Sensitivity
0, yscaling 0 both as argument and as configuration entry) are clamped
as the claim states. -/
theorem C7_estimate_clamps_heuristics_witness :
    3 ≤ (resolveHeuristics
          ⟨false, true, true, false, false, false, false, some 0, 2, 0⟩
          0).searchFwhm ∧
    1 ≤ (resolveHeuristics
          ⟨false, true, true, false, false, false, false, some 0, 2, 0⟩
          0).searchSens ∧
    resolveYscaling (some 0)
      ⟨false, true, true, false, false, false, false, some 0, 2, 0⟩ = 1 ∧
    resolveYscaling none
      ⟨false, true, true, false, false, false, false, some 0, 2, 0⟩ = 1 ∧
    resolveYscaling (some 0)
      ⟨false, true, true, false, false, false, false, some 0, 2, 0⟩ ≠ 0 := by
  have h := C7_estimate_clamps_heuristics
    ⟨false, true, true, false, false, false, false, some 0, 2, 0⟩ 0 (some 0)
  have h2 := C7_estimate_clamps_heuristics
    ⟨false, true, true, false, false, false, false, some 0, 2, 0⟩ 0 none
  exact ⟨h.1, h.2.1, h.2.2.1 rfl, h2.2.2.2.1 rfl, h.2.2.2.2⟩

theorem resolveHeuristics_cfg (cfg : EstConfig) (g : ℤ) :
    (resolveHeuristics cfg g).cfg =
      { cfg with
          fwhmPoints :=
            if (if cfg.autoFwhm then g else truncQ cfg.fwhmPoints) < 3 then 3
            else cfg.fwhmPoints
          sensitivity := if cfg.sensitivity < 1 then 1 else cfg.sensitivity } := by
  unfold resolveHeuristics
  dsimp only
  split_ifs <;> rfl

theorem resolveHeuristics_searchFwhm (cfg : EstConfig) (g : ℤ) :
    (resolveHeuristics cfg g).searchFwhm =
      if (if cfg.autoFwhm then g else truncQ cfg.fwhmPoints) < 3 then 3
      else (if cfg.autoFwhm then g else truncQ cfg.fwhmPoints) := by
  unfold resolveHeuristics
  dsimp only
  split_ifs <;> rfl

theorem resolveHeuristics_searchSens (cfg : EstConfig) (g : ℤ) :
    (resolveHeuristics cfg g).searchSens =
      if cfg.sensitivity < 1 then 1 else cfg.sensitivity := by
  unfold resolveHeuristics
  dsimp only
  split_ifs <;> rfl

/-- C10: the clamping in estimate_height_position_fwhm writes back into
the configuration store.  When AutoFwhm is off and the configured
FwhmPoints is below 3, the store afterwards holds FwhmPoints = 3, and a
subsequent call reads back search fwhm 3; when the configured
Sensitivity is below 1, the store afterwards holds Sensitivity = 1 and a
subsequent call reads back search sensitivity 1. -/
theorem C10_estimate_mutates_config (cfg : EstConfig) (g g2 : ℤ) :
    (cfg.autoFwhm = false → cfg.fwhmPoints < 3 →
      (resolveHeuristics cfg g).cfg.fwhmPoints = 3 ∧
      (resolveHeuristics (resolveHeuristics cfg g).cfg g2).searchFwhm = 3) ∧
    (cfg.sensitivity < 1 →
      (resolveHeuristics cfg g).cfg.sensitivity = 1 ∧
      (resolveHeuristics (resolveHeuristics cfg g).cfg g2).searchSens = 1) := by
  have h3 : truncQ 3 = 3 := by norm_num [truncQ]
  constructor
  · intro hauto hlt
    have htr : truncQ cfg.fwhmPoints < 3 := truncQ_lt_three hlt
    have hcfg : (resolveHeuristics cfg g).cfg =
        { cfg with
            fwhmPoints := 3
            sensitivity := if cfg.sensitivity < 1 then 1 else cfg.sensitivity
        } := by
      rw [resolveHeuristics_cfg]
      simp only [hauto, Bool.false_eq_true, if_false, if_pos htr]
    refine ⟨by rw [hcfg], ?_⟩
    rw [resolveHeuristics_searchFwhm, hcfg]
    simp only [hauto, Bool.false_eq_true, if_false, h3]
    norm_num
  · intro hlt
    have hsens : (resolveHeuristics cfg g).cfg.sensitivity = 1 := by
      rw [resolveHeuristics_cfg]
      simp only [if_pos hlt]
    refine ⟨hsens, ?_⟩
    rw [resolveHeuristics_searchSens, hsens]
    norm_num

/-- C10 witness: with AutoFwhm off, FwhmPoints 2 and Sensitivity 0,
the clamped values 3 and 1 are written into the configuration and read
back by a second call. -/
theorem C10_estimate_mutates_config_witness :
    ((resolveHeuristics
        ⟨false, true, true, false, false, false, false, some 1, 2, 0⟩
        0).cfg.fwhmPoints = 3 ∧
      (resolveHeuristics (resolveHeuristics
        ⟨false, true, true, false, false, false, false, some 1, 2, 0⟩
        0).cfg 0).searchFwhm = 3) ∧
    ((resolveHeuristics
        ⟨false, true, true, false, false, false, false, some 1, 2, 0⟩
        0).cfg.sensitivity = 1 ∧
      (resolveHeuristics (resolveHeuristics
        ⟨false, true, true, false, false, false, false, some 1, 2, 0⟩
        0).cfg 0).searchSens = 1) :=
  ⟨(C10_estimate_mutates_config
      ⟨false, true, true, false, false, false, false, some 1, 2, 0⟩
      0 0).1 rfl (by decide),
   (C10_estimate_mutates_config
      ⟨false, true, true, false, false, false, false, some 1, 2, 0⟩
      0 0).2 (by decide)⟩

/-- C2: with SameFwhmFlag set and NoConstraintsFlag unset,
estimate_height_position_fwhm gives the FWHM of every detected peak
other than the largest-height peak the constraint
FACTOR(3 * index_largest_peak + 2, 1.0), while the largest peak's own
FWHM keeps POSITIVE (when PositiveFwhmFlag is set) or stays free. -/
theorem C2_samefwhm_factor_constraints (cfg : EstConfig) (heights : List ℚ)
    (xmin xmax : ℚ) (i : ℕ)
    (hncons : cfg.noConstraintsFlag = false)
    (hsame : cfg.sameFwhmFlag = true)
    (hi : i < heights.length)
    (hne : i ≠ indexLargestPeak heights) :
    (gaussFinalCons cfg xmin xmax heights.length
        (indexLargestPeak heights)).get? (3 * i + 2) =
      some (CFACTOR, 3 * (indexLargestPeak heights : ℚ) + 2, 1) ∧
    (indexLargestPeak heights < heights.length →
      (gaussFinalCons cfg xmin xmax heights.length
          (indexLargestPeak heights)).get?
            (3 * indexLargestPeak heights + 2) =
        some (if cfg.positiveFwhmFlag then (CPOSITIVE, 0, 0)
              else ((0 : ℚ), (0 : ℚ), (0 : ℚ)))) := by
  constructor
  · rw [gaussFinalCons_get? cfg xmin xmax heights.length
      (indexLargestPeak heights) i hi]
    unfold gaussFwhmRow
    rw [if_pos]
    exact ⟨by simp [hncons], by simp [hsame], hne⟩
  · intro hlarge
    rw [gaussFinalCons_get? cfg xmin xmax heights.length
      (indexLargestPeak heights) (indexLargestPeak heights) hlarge]
    unfold gaussFwhmRow
    rw [if_neg (by simp)]
    split_ifs with h1 h2 h2
    · rfl
    · exact absurd h1.2 h2
    · exact absurd ⟨by simp [hncons], h2⟩ h1
    · rfl

/-- C2 witness: two peaks with seed heights 5 and 10 (so the largest is
peak 1), SameFwhmFlag on and NoConstraintsFlag off: the FWHM row of peak
0 is FACTOR(3 * 1 + 2, 1.0) and the FWHM row of peak 1 is POSITIVE. -/
theorem C2_samefwhm_factor_constraints_witness :
    (gaussFinalCons
        ⟨false, true, true, true, false, false, false, some 1, 8, 5 / 2⟩
        0 999 [5, 10].length (indexLargestPeak [5, 10])).get? (3 * 0 + 2) =
      some (CFACTOR, 3 * (indexLargestPeak [5, 10] : ℚ) + 2, 1) ∧
    (indexLargestPeak [5, 10] < [5, 10].length →
      (gaussFinalCons
          ⟨false, true, true, true, false, false, false, some 1, 8, 5 / 2⟩
          0 999 [5, 10].length (indexLargestPeak [5, 10])).get?
            (3 * indexLargestPeak [5, 10] + 2) =
        some (if (⟨false, true, true, true, false, false, false, some 1, 8,
                5 / 2⟩ : EstConfig).positiveFwhmFlag then (CPOSITIVE, 0, 0)
              else ((0 : ℚ), (0 : ℚ), (0 : ℚ)))) :=
  C2_samefwhm_factor_constraints
    ⟨false, true, true, true, false, false, false, some 1, 8, 5 / 2⟩
    [5, 10] 0 999 0 rfl rfl (by decide) (by decide)

/-- C1: evaluation of the Specfit.estimate parameter merge at the
claim's own scenario (Constant background, two Gaussians estimated with
SameFwhmFlag set, largest peak at index 0).  The peak estimator returns
its constraints as a 6 x 3 table (rows per parameter), but the merge
loop indexes it as fun_esti_constraints[j][fun_param_index], i.e. as a
3 x N table; at the fourth peak parameter the row access [0][3] falls
off the 3-entry first row and the source raises IndexError, so no
7-entry parameter list is ever produced.  The constraint table below is
exactly gaussFinalCons for npeaks = 2, idxLargest = 0 under the default
flags plus SameFwhmFlag. -/
theorem C1_estimate_merge_raises_indexerror :
    estimateMerge ["Constant"] ["Height", "Position", "FWHM"]
      [1] [[0], [0], [0]]
      [1500, 100, 50, 1000, 700, 50]
      [[1, 0, 0], [0, 0, 0], [1, 0, 0], [1, 0, 0], [0, 0, 0], [4, 2, 1]] =
      none := by
  decide

theorem estimate_agauss_pars_headD :
    (estimate_agauss_pars [1000, 500, 20]).headD 0 = gaussHeightToArea 1000 20 := by
  unfold estimate_agauss_pars areaConvert mapIdxFrom
  simp only [List.headD_cons]
  rw [if_pos (by decide)]
  rfl

theorem sqrt_two_pi_bounds :
    (2.506628 : ℝ) < Real.sqrt (2 * Real.pi) ∧
      Real.sqrt (2 * Real.pi) < 2.506629 := by
  have hpi1 : (3.141592 : ℝ) < Real.pi := Real.pi_gt_3141592
  have hpi2 : Real.pi < 3.141593 := Real.pi_lt_3141593
  constructor
  · rw [show (2.506628 : ℝ) = Real.sqrt (2.506628 ^ 2) from
      (Real.sqrt_sq (by norm_num)).symm]
    exact Real.sqrt_lt_sqrt (by norm_num) (by nlinarith)
  · rw [Real.sqrt_lt' (by norm_num)]
    nlinarith

theorem sqrt_two_log_two_bounds :
    (1.177410 : ℝ) < Real.sqrt (2 * Real.log 2) ∧
      Real.sqrt (2 * Real.log 2) < 1.177411 := by
  have hl1 : (0.6931471803 : ℝ) < Real.log 2 := Real.log_two_gt_d9
  have hl2 : Real.log 2 < 0.6931471808 := Real.log_two_lt_d9
  constructor
  · rw [show (1.177410 : ℝ) = Real.sqrt (1.177410 ^ 2) from
      (Real.sqrt_sq (by norm_num)).symm]
    exact Real.sqrt_lt_sqrt (by norm_num) (by nlinarith)
  · rw [Real.sqrt_lt' (by norm_num)]
    nlinarith

/-- C3: estimate_agauss and estimate_alorentz keep every position and
FWHM unchanged and replace each height H by the corresponding area,
sqrt(2 pi) H w / (2 sqrt(2 log 2)) for the Gaussian and H w pi / 2 for
the Lorentzian; on the single Gaussian (H = 1000, p = 500, w = 20) the
first element of the converted parameters lies strictly between 21289
and 21290, i.e. it is approximately 21289.5. -/
theorem C3_area_conversion_roundtrip (par : List ℝ) (i : ℕ)
    (h : 3 * i + 2 < par.length) :
    ((estimate_agauss_pars par).get? (3 * i + 1) = par.get? (3 * i + 1) ∧
     (estimate_agauss_pars par).get? (3 * i + 2) = par.get? (3 * i + 2) ∧
     (estimate_agauss_pars par).get? (3 * i) =
       some (gaussHeightToArea (par.getD (3 * i) 0) (par.getD (3 * i + 2) 0))) ∧
    ((estimate_alorentz_pars par).get? (3 * i + 1) = par.get? (3 * i + 1) ∧
     (estimate_alorentz_pars par).get? (3 * i + 2) = par.get? (3 * i + 2) ∧
     (estimate_alorentz_pars par).get? (3 * i) =
       some (lorentzHeightToArea (par.getD (3 * i) 0)
         (par.getD (3 * i + 2) 0))) ∧
    (∀ hgt w : ℝ, gaussHeightToArea hgt w =
      hgt * w * (Real.sqrt (2 * Real.pi) /
        (2 * Real.sqrt (2 * Real.log 2)))) ∧
    (∀ hgt w : ℝ, lorentzHeightToArea hgt w = hgt * w * Real.pi / 2) ∧
    (21289 < (estimate_agauss_pars [1000, 500, 20]).headD 0 ∧
     (estimate_agauss_pars [1000, 500, 20]).headD 0 < 21290) := by
  have key : ∀ (conv : ℝ → ℝ → ℝ),
      (areaConvert conv par).get? (3 * i + 1) = par.get? (3 * i + 1) ∧
      (areaConvert conv par).get? (3 * i + 2) = par.get? (3 * i + 2) ∧
      (areaConvert conv par).get? (3 * i) =
        some (conv (par.getD (3 * i) 0) (par.getD (3 * i + 2) 0)) := by
    intro conv
    refine ⟨?_, ?_, ?_⟩
    · rw [areaConvert, mapIdxFrom_get?]
      have hcond : ¬((3 * i + 1) % 3 = 0 ∧ (3 * i + 1) / 3 < par.length / 3) := by
        omega
      rcases hget : par.get? (3 * i + 1) with _ | v
      · rfl
      · simp only [Option.map_some', Nat.zero_add, if_neg hcond]
    · rw [areaConvert, mapIdxFrom_get?]
      have hcond : ¬((3 * i + 2) % 3 = 0 ∧ (3 * i + 2) / 3 < par.length / 3) := by
        omega
      rcases hget : par.get? (3 * i + 2) with _ | v
      · rfl
      · simp only [Option.map_some', Nat.zero_add, if_neg hcond]
    · rw [areaConvert, mapIdxFrom_get?]
      have hcond : (3 * i) % 3 = 0 ∧ (3 * i) / 3 < par.length / 3 := by
        constructor <;> omega
      rcases hget : par.get? (3 * i) with _ | v
      · exact absurd (List.get?_eq_none.mp hget) (by omega)
      · have hv : par.getD (3 * i) 0 = v := by
          show (par.get? (3 * i)).getD 0 = v
          rw [hget]
          rfl
        simp only [Option.map_some', Nat.zero_add, if_pos hcond, hv]
  refine ⟨key gaussHeightToArea, key lorentzHeightToArea, ?_, ?_, ?_⟩
  · intro hgt w
    unfold gaussHeightToArea
    ring
  · intro hgt w
    unfold lorentzHeightToArea
    ring
  · rw [estimate_agauss_pars_headD]
    have ha := sqrt_two_pi_bounds
    have hb := sqrt_two_log_two_bounds
    have hbpos : (0 : ℝ) < Real.sqrt (2 * Real.log 2) := by linarith [hb.1]
    unfold gaussHeightToArea
    constructor
    · rw [lt_div_iff (by linarith)]
      nlinarith [ha.1, hb.2]
    · rw [div_lt_iff (by linarith)]
      nlinarith [ha.2, hb.1]

/-- C3 witness: the conversion theorem applied to the concrete single
Gaussian (H = 1000, p = 500, w = 20). -/
theorem C3_area_conversion_roundtrip_witness :
    3 * 0 + 2 < ([1000, 500, 20] : List ℝ).length ∧
    (((estimate_agauss_pars [1000, 500, 20]).get? (3 * 0 + 1) =
        ([1000, 500, 20] : List ℝ).get? (3 * 0 + 1) ∧
      (estimate_agauss_pars [1000, 500, 20]).get? (3 * 0 + 2) =
        ([1000, 500, 20] : List ℝ).get? (3 * 0 + 2) ∧
      (estimate_agauss_pars [1000, 500, 20]).get? (3 * 0) =
        some (gaussHeightToArea
          (([1000, 500, 20] : List ℝ).getD (3 * 0) 0)
          (([1000, 500, 20] : List ℝ).getD (3 * 0 + 2) 0))) ∧
     ((estimate_alorentz_pars [1000, 500, 20]).get? (3 * 0 + 1) =
        ([1000, 500, 20] : List ℝ).get? (3 * 0 + 1) ∧
      (estimate_alorentz_pars [1000, 500, 20]).get? (3 * 0 + 2) =
        ([1000, 500, 20] : List ℝ).get? (3 * 0 + 2) ∧
      (estimate_alorentz_pars [1000, 500, 20]).get? (3 * 0) =
        some (lorentzHeightToArea
          (([1000, 500, 20] : List ℝ).getD (3 * 0) 0)
          (([1000, 500, 20] : List ℝ).getD (3 * 0 + 2) 0))) ∧
     (∀ hgt w : ℝ, gaussHeightToArea hgt w =
        hgt * w * (Real.sqrt (2 * Real.pi) /
          (2 * Real.sqrt (2 * Real.log 2)))) ∧
     (∀ hgt w : ℝ, lorentzHeightToArea hgt w = hgt * w * Real.pi / 2) ∧
     (21289 < (estimate_agauss_pars [1000, 500, 20]).headD 0 ∧
      (estimate_agauss_pars [1000, 500, 20]).headD 0 < 21290)) :=
  ⟨by decide, C3_area_conversion_roundtrip [1000, 500, 20] 0 (by decide)⟩

theorem fwhmScanGo_append {A : Type} [LinearOrderedField A]
    (l1 l2 : List (ParamEntry A)) :
    ∀ (i : ℕ) (st : FwhmScanState A),
      fwhmScanGo (l1 ++ l2) i st =
        fwhmScanGo l2 (i + l1.length) (fwhmScanGo l1 i st) := by
  induction l1 with
  | nil => intro i st; simp [fwhmScanGo]
  | cons p t ih =>
    intro i st
    simp only [List.cons_append, fwhmScanGo, List.append_eq]
    rw [ih (i + 1)]
    have harith : i + 1 + t.length = i + (t.length + 1) := by omega
    rw [harith]
    rfl

theorem fwhmScanGo_no_eligible {A : Type} [LinearOrderedField A]
    (l : List (ParamEntry A)) :
    ∀ (i : ℕ) (st : FwhmScanState A), (∀ p ∈ l, ¬fwhmTieEligible p) →
      (fwhmScanGo l i st).fwhmcode = st.fwhmcode ∧
      (fwhmScanGo l i st).fwhmcons1 = st.fwhmcons1 ∧
      (fwhmScanGo l i st).fwhmcons2 = st.fwhmcons2 := by
  induction l with
  | nil => intro i st _; exact ⟨rfl, rfl, rfl⟩
  | cons p t ih =>
    intro i st hall
    have hp := hall p (List.mem_cons_self p t)
    have ht : ∀ q ∈ t, ¬fwhmTieEligible q := fun q hq =>
      hall q (List.mem_cons_of_mem p hq)
    unfold fwhmScanGo
    by_cases h1 : strContains p.name "Fwhm" = true
    · rw [if_pos h1]
      have h2 : p.code ∉ fwhmEligibleCodes := fun hc => hp ⟨h1, hc⟩
      rw [if_neg h2]
      exact ih (i + 1) _ ht
    · rw [if_neg h1]
      exact ih (i + 1) st ht

/-- C4 (amended): when the residual loop proposes a new peak, the
appended group has its Position QUOTED to pos plus or minus half the
fwhm, its Area set from the residual height by the Gaussian
height-to-area conversion with code POSITIVE, and its FWHM FACTOR-tied
with factor 1.0 to the last parameter of the existing list whose name
contains Fwhm and whose code is FREE, FIXED, QUOTED or POSITIVE (not to
the first FWHM parameter); when the search proposes nothing, the refit
loop terminates with the state unchanged. -/
theorem C4_mca_new_peak_group (l1 l2 : List (ParamEntry ℝ))
    (p : ParamEntry ℝ) (hp : fwhmTieEligible p)
    (hl2 : ∀ q ∈ l2, ¬fwhmTieEligible q)
    (pos height fwhm : ℝ) (hh : 0 < height) (hw : 0 < fwhm)
    (fst : FwhmScanState ℝ) (names : List String)
    (search : McaFitState ℝ → List (ℝ × String × ℝ × ℝ))
    (fitStep : McaFitState ℝ → McaFitState ℝ) (fuel : ℕ)
    (st : McaFitState ℝ) (hsearch : (search st).isEmpty = true) :
    ((fwhmScan (l1 ++ p :: l2)).fwhmcode = "FACTOR" ∧
     (fwhmScan (l1 ++ p :: l2)).fwhmcons1 = (l1.length : ℝ) ∧
     (fwhmScan (l1 ++ p :: l2)).fwhmcons2 = 1) ∧
    mcaNewGroup ["Area", "Position", "Fwhm"] pos height fwhm
        (mcaGaussArea height fwhm) fst =
      [(mcaGaussArea height fwhm, "POSITIVE", 0, 0),
       (pos, "QUOTED", pos - (1 / 2) * fwhm, pos + (1 / 2) * fwhm),
       (fwhm, fst.fwhmcode, fst.fwhmcons1, fst.fwhmcons2)] ∧
    mcaRefitIter names search fitStep (fuel + 1) st = st := by
  refine ⟨?_, ?_, ?_⟩
  · unfold fwhmScan
    rw [fwhmScanGo_append l1 (p :: l2) 0 ⟨10, "POSITIVE", 0, 0⟩]
    show (fwhmScanGo (p :: l2) _ _).fwhmcode = _ ∧ _
    unfold fwhmScanGo
    rw [if_pos hp.1, if_pos hp.2]
    have hres := fwhmScanGo_no_eligible l2 (0 + l1.length + 1)
      ⟨p.fitresult, "FACTOR", ((0 + l1.length : ℕ) : ℝ), 1⟩ hl2
    refine ⟨hres.1, ?_, hres.2.2⟩
    rw [hres.2.1]
    norm_num
  · have hlog : (0 : ℝ) < Real.log 2 := Real.log_pos (by norm_num)
    have hs2 : (0 : ℝ) < Real.sqrt (2 * Real.log 2) :=
      Real.sqrt_pos.mpr (by linarith)
    have hs1 : (0 : ℝ) < Real.sqrt (2 * Real.pi) :=
      Real.sqrt_pos.mpr (by linarith [Real.pi_pos])
    have harea : 0 < mcaGaussArea height fwhm := by
      unfold mcaGaussArea
      exact mul_pos (div_pos (mul_pos hh hw) (by linarith)) hs1
    unfold mcaNewGroup
    rw [if_neg (not_le.mpr hh)]
    have hA1 : strContains "Area" "Position" = false := rfl
    have hA2 : strContains "Area" "Area" = true := rfl
    have hP1 : strContains "Position" "Position" = true := rfl
    have hF1 : strContains "Fwhm" "Position" = false := rfl
    have hF2 : strContains "Fwhm" "Area" = false := rfl
    have hF3 : strContains "Fwhm" "Fwhm" = true := rfl
    simp only [mcaNewGroupGo, hA1, hA2, hP1, hF1, hF2, hF3,
      Bool.false_eq_true, if_false, if_true, not_le.mpr harea,
      Option.pure_def, Option.bind_eq_bind, Option.some_bind]
  · unfold mcaRefitIter
    split_ifs with h
    · rfl
    · simp only [hsearch, if_true]

/-- C4 counterexample: a fitted two-peak parameter list (Area Gaussians
layout) whose two FWHM parameters both carry code POSITIVE.  The first
FWHM parameter sits at index 2, but the fwhm scan of mcaresidualssearch
leaves the FACTOR tie pointing at index 5, the last eligible FWHM
parameter, so the new group is not tied to the first FWHM parameter as
the claim states. -/
theorem C4_first_fwhm_tie_counterexample :
    (fwhmScan
      [(⟨"Area1", 0, 1, "POSITIVE", 0, 0, 100, 0⟩ : ParamEntry ℝ),
       ⟨"Position1", 0, 1, "QUOTED", 0, 0, 10, 0⟩,
       ⟨"Fwhm1", 0, 1, "POSITIVE", 0, 0, 5, 0⟩,
       ⟨"Area2", 0, 2, "POSITIVE", 0, 0, 80, 0⟩,
       ⟨"Position2", 0, 2, "QUOTED", 0, 0, 30, 0⟩,
       ⟨"Fwhm2", 0, 2, "POSITIVE", 0, 0, 6, 0⟩]).fwhmcons1 = 5 ∧
    (fwhmScan
      [(⟨"Area1", 0, 1, "POSITIVE", 0, 0, 100, 0⟩ : ParamEntry ℝ),
       ⟨"Position1", 0, 1, "QUOTED", 0, 0, 10, 0⟩,
       ⟨"Fwhm1", 0, 1, "POSITIVE", 0, 0, 5, 0⟩,
       ⟨"Area2", 0, 2, "POSITIVE", 0, 0, 80, 0⟩,
       ⟨"Position2", 0, 2, "QUOTED", 0, 0, 30, 0⟩,
       ⟨"Fwhm2", 0, 2, "POSITIVE", 0, 0, 6, 0⟩]).fwhmcode = "FACTOR" ∧
    specFirstFwhmIndex
      [(⟨"Area1", 0, 1, "POSITIVE", 0, 0, 100, 0⟩ : ParamEntry ℝ),
       ⟨"Position1", 0, 1, "QUOTED", 0, 0, 10, 0⟩,
       ⟨"Fwhm1", 0, 1, "POSITIVE", 0, 0, 5, 0⟩,
       ⟨"Area2", 0, 2, "POSITIVE", 0, 0, 80, 0⟩,
       ⟨"Position2", 0, 2, "QUOTED", 0, 0, 30, 0⟩,
       ⟨"Fwhm2", 0, 2, "POSITIVE", 0, 0, 6, 0⟩] = some 2 ∧
    (5 : ℝ) ≠ 2 := by
  have h : fwhmScan
      [(⟨"Area1", 0, 1, "POSITIVE", 0, 0, 100, 0⟩ : ParamEntry ℝ),
       ⟨"Position1", 0, 1, "QUOTED", 0, 0, 10, 0⟩,
       ⟨"Fwhm1", 0, 1, "POSITIVE", 0, 0, 5, 0⟩,
       ⟨"Area2", 0, 2, "POSITIVE", 0, 0, 80, 0⟩,
       ⟨"Position2", 0, 2, "QUOTED", 0, 0, 30, 0⟩,
       ⟨"Fwhm2", 0, 2, "POSITIVE", 0, 0, 6, 0⟩] =
      ⟨6, "FACTOR", ((5 : ℕ) : ℝ), 1⟩ := rfl
  refine ⟨?_, ?_, rfl, by norm_num⟩
  · rw [h]
    norm_num
  · rw [h]

/-- C4 witness: the amended theorem applied to a concrete three-entry
parameter list whose only eligible FWHM parameter sits at index 2, with
pos = 20, height = 1, fwhm = 2, and a residual search that proposes
nothing. -/
theorem C4_mca_new_peak_group_witness :
    ((fwhmScan
        [(⟨"Area1", 0, 1, "POSITIVE", 0, 0, 100, 0⟩ : ParamEntry ℝ),
         ⟨"Position1", 0, 1, "QUOTED", 0, 0, 10, 0⟩,
         ⟨"Fwhm1", 0, 1, "POSITIVE", 0, 0, 5, 0⟩]).fwhmcode = "FACTOR" ∧
     (fwhmScan
        [(⟨"Area1", 0, 1, "POSITIVE", 0, 0, 100, 0⟩ : ParamEntry ℝ),
         ⟨"Position1", 0, 1, "QUOTED", 0, 0, 10, 0⟩,
         ⟨"Fwhm1", 0, 1, "POSITIVE", 0, 0, 5, 0⟩]).fwhmcons1 = ((2 : ℕ) : ℝ) ∧
     (fwhmScan
        [(⟨"Area1", 0, 1, "POSITIVE", 0, 0, 100, 0⟩ : ParamEntry ℝ),
         ⟨"Position1", 0, 1, "QUOTED", 0, 0, 10, 0⟩,
         ⟨"Fwhm1", 0, 1, "POSITIVE", 0, 0, 5, 0⟩]).fwhmcons2 = 1) ∧
    mcaNewGroup ["Area", "Position", "Fwhm"] 20 1 2 (mcaGaussArea 1 2)
        ⟨10, "POSITIVE", 0, 0⟩ =
      [(mcaGaussArea 1 2, "POSITIVE", 0, 0),
       ((20 : ℝ), "QUOTED", 20 - (1 / 2) * 2, 20 + (1 / 2) * 2),
       ((2 : ℝ), "POSITIVE", 0, 0)] ∧
    mcaRefitIter [] (fun _ => []) (fun s => s) (0 + 1)
      (⟨[], 0⟩ : McaFitState ℝ) = ⟨[], 0⟩ :=
  C4_mca_new_peak_group
    [⟨"Area1", 0, 1, "POSITIVE", 0, 0, 100, 0⟩,
     ⟨"Position1", 0, 1, "QUOTED", 0, 0, 10, 0⟩]
    [] ⟨"Fwhm1", 0, 1, "POSITIVE", 0, 0, 5, 0⟩ (by decide) (by simp)
    20 1 2 zero_lt_one zero_lt_two ⟨10, "POSITIVE", 0, 0⟩ []
    (fun _ => []) (fun s => s) 0 ⟨[], 0⟩ rfl

/-- C5 counterexample: setdata called with x of length 2 and y of length
3 (both non-None, no x window) returns with no exception and with the
mismatched buffers stored, so no ShapeMismatch error is raised on a
length mismatch. -/
theorem C5_no_shape_check_counterexample :
    setdata (some [0, 1]) (some [5, 6, 7]) none none none =
      (⟨[0, 1], [5, 6, 7], [1, 1, 1], [0, 1], [5, 6, 7], [1, 1, 1]⟩, none) := by
  decide

/-- C5 (amended): setdata performs no length validation.  With both x
and y non-None and no x window, it stores the buffers exactly as given,
raising nothing, even when the lengths differ. -/
theorem C5_setdata_stores_mismatched_buffers (x y : List ℚ)
    (h : x.length ≠ y.length) :
    setdata (some x) (some y) none none none =
      (⟨x, y, List.replicate y.length 1, x, y, List.replicate y.length 1⟩,
       none) := by
  unfold setdata
  dsimp only
  rw [if_neg (by simp)]

/-- C5 witness: the amended theorem at x of length 2, y of length 3. -/
theorem C5_setdata_stores_mismatched_buffers_witness :
    ([0, 1] : List ℚ).length ≠ ([5, 6, 7] : List ℚ).length ∧
    setdata (some [0, 1]) (some [5, 6, 7]) none none none =
      (⟨[0, 1], [5, 6, 7], List.replicate ([5, 6, 7] : List ℚ).length 1,
        [0, 1], [5, 6, 7], List.replicate ([5, 6, 7] : List ℚ).length 1⟩,
       none) :=
  ⟨by decide, C5_setdata_stores_mismatched_buffers [0, 1] [5, 6, 7] (by decide)⟩

/-- C6 counterexample: on the cubic model f(p, x) = p_0 cubed with
p = [1/2], num_deriv returns 3/4 + (1/200000) squared, the central
difference with the source's step p_0 * 1e-5, while the claim's step
max(abs p_0, 1) * 1e-5 gives 3/4 + (1/100000) squared; the two values
differ. -/
theorem C6_step_size_counterexample :
    num_deriv (fun q _ => q.getD 0 0 ^ 3) [1 / 2] 0 0 ≠
      specNumDeriv (fun q _ => q.getD 0 0 ^ 3) [1 / 2] 0 0 := by
  have hmax : |(1 / 2 : ℚ)| ⊔ 1 = 1 := by
    rw [abs_of_pos (by norm_num)]
    exact max_eq_right (by norm_num)
  norm_num [num_deriv, specNumDeriv, numDerivDelta, specNumDerivDelta,
    centralDiff, hmax]

/-- C6 (amended): num_deriv returns the central difference of the fit
function in parameter i with step
delta = (p_i + [p_i = 0]) * 1e-5
(so for nonzero p_i the step is p_i * 1e-5, not max(abs p_i, 1) * 1e-5;
the sign of delta does not affect the quotient). -/
theorem C6_num_deriv_central_difference (f : List ℚ → ℚ → ℚ) (p : List ℚ)
    (i : ℕ) (x : ℚ) :
    num_deriv f p i x =
      centralDiff (fun v => f (p.set i v) x) (p.getD i 0)
        (numDerivDelta p i) ∧
    (p.getD i 0 ≠ 0 → numDerivDelta p i = p.getD i 0 * (1 / 100000)) := by
  refine ⟨rfl, fun h => ?_⟩
  unfold numDerivDelta
  rw [if_neg h]
  ring

/-- C6 witness: the amended theorem at the parameter vector [2]. -/
theorem C6_num_deriv_central_difference_witness :
    num_deriv (fun _ _ => (0 : ℚ)) [2] 0 0 =
      centralDiff (fun v => (fun _ _ => (0 : ℚ)) (([2] : List ℚ).set 0 v) 0)
        (([2] : List ℚ).getD 0 0) (numDerivDelta [2] 0) ∧
    numDerivDelta [2] 0 = ([2] : List ℚ).getD 0 0 * (1 / 100000) :=
  ⟨(C6_num_deriv_central_difference (fun _ _ => 0) [2] 0 0).1,
   (C6_num_deriv_central_difference (fun _ _ => 0) [2] 0 0).2 (by decide)⟩

/-- C8: selecting a theory or background name that is absent from the
corresponding registry raises KeyError at once, and the driver state
(fitconfig selections and active function slots) is exactly the state
before the call. -/
theorem C8_unknown_selection_rejected (dict bdict : List (String × TheoryEntry))
    (st : FitDriverState) (tname bname : String)
    (ht : List.lookup tname dict = none)
    (hb : List.lookup bname bdict = none) :
    settheory dict st tname = (st, some (theoryErrMsg tname)) ∧
    setbackground bdict st bname = (st, some (bkgErrMsg bname)) := by
  unfold settheory setbackground
  rw [ht, hb]
  exact ⟨rfl, rfl⟩

/-- C8 witness: a registry holding only Gaussians rejects the names
Foo and Bar without touching the driver state. -/
theorem C8_unknown_selection_rejected_witness :
    settheory [("Gaussians", [some 0, some 1, some 2, none, none])]
        ⟨none, "No Background", none, none, false⟩ "Foo" =
      (⟨none, "No Background", none, none, false⟩,
       some (theoryErrMsg "Foo")) ∧
    setbackground [("Constant", [some 3, some 4, some 5])]
        ⟨none, "No Background", none, none, false⟩ "Bar" =
      (⟨none, "No Background", none, none, false⟩, some (bkgErrMsg "Bar")) :=
  C8_unknown_selection_rejected
    [("Gaussians", [some 0, some 1, some 2, none, none])]
    [("Constant", [some 3, some 4, some 5])]
    ⟨none, "No Background", none, none, false⟩ "Foo" "Bar" (by decide)
    (by decide)

/-- C9: a SpecfitFunctions instance built with config=None stores a
reference to the shared module-level defaults dictionary, not a copy;
configure through one default-built instance is observed by every other
default-built instance, whereas an instance built over its own
dictionary leaves the shared defaults untouched.  Concretely, a single
configure call with the lowercase keyword sensitivity=4 updates the
Sensitivity entry of the shared defaults. -/
theorem C9_shared_defaults_aliasing (h : SffHeap) (kw : List (String × ℚ)) :
    (sffInit h none).2 = ConfigRef.shared ∧
    (sffInit (sffInit h none).1 none).2 = ConfigRef.shared ∧
    (sffInit (sffInit h none).1 none).1.defaults = h.defaults ∧
    readCfg
      (sffConfigureRef (sffInit (sffInit h none).1 none).1
        (sffInit h none).2 kw)
      (sffInit (sffInit h none).1 none).2 = sffConfigure h.defaults kw ∧
    (∀ c : ConfigDict,
      (sffConfigureRef (sffInit h (some c)).1 (sffInit h (some c)).2
        kw).defaults = h.defaults) ∧
    cfgGet (sffConfigure SPECFITFUNCTIONS_DEFAULTS [("sensitivity", 4)])
      "Sensitivity" = some 4 :=
  ⟨rfl, rfl, rfl, rfl, fun _ => rfl, by decide⟩
